import Mathlib

/-!
Shallow embedding of the Vulkan rasterizer backend
(`src/video_core/renderer_vulkan/vk_rasterizer.cpp`) of the Azahar emulator,
together with proofs checking the natural-language specification against it.

Machine integers from the C++ source are modelled as `Nat` (all the values
involved are small unsigned quantities and no overflow is reachable in the
modelled paths); register bit-fields are modelled as plain `Nat`/`Bool`
fields of explicit record types.  Enumerator values of Pica register enums
that the code compares against are named constants.
-/

/-! ## Common helpers -/

/-- `Common::AlignUp` from `common/alignment.h`: round `value` up to the next
multiple of `size` (implemented there as `value -= value % size;
return mod == 0 ? value : value + size`). -/
def alignUp (value size : Nat) : Nat :=
  let m := value % size
  if m = 0 then value else value - m + size

theorem le_alignUp (value size : Nat) (hs : 0 < size) : value ≤ alignUp value size := by
  unfold alignUp
  by_cases h : value % size = 0
  · simp [h]
  · simp only [h, if_false]
    have hm : value % size < size := Nat.mod_lt _ hs
    have hle : value % size ≤ value := Nat.mod_le _ _
    omega

theorem lt_alignUp_of_ne (value size : Nat) (hs : 0 < size)
    (hne : alignUp value size ≠ value) : value < alignUp value size := by
  unfold alignUp at *
  by_cases h : value % size = 0
  · simp [h] at hne
  · simp only [h, if_false] at *
    have hm : value % size < size := Nat.mod_lt _ hs
    have hle : value % size ≤ value := Nat.mod_le _ _
    omega

/-- Generic preservation of a predicate along `List.foldl`. -/
theorem foldl_preserve {α β : Type _} {f : α → β → α} {P : α → Prop}
    (h : ∀ a b, P a → P (f a b)) :
    ∀ (l : List β) (a : α), P a → P (l.foldl f a)
  | [], _, ha => ha
  | b :: l, a, ha => foldl_preserve h l (f a b) (h a b ha)

/-! ## Fixed-function state synchronizer (`RasterizerVulkan::SyncDrawState`)

The register shadow fields that `SyncDrawState` reads.  They mirror
`regs.framebuffer.output_merger`, `regs.framebuffer.framebuffer` and
`regs.rasterizer`; one-bit bit-fields that the code uses as booleans are
`Bool`, bit-fields compared with `== 1` or `!= 0` keep their raw `Nat`
value exactly as in the source. -/

/-- Enumerator `Pica::FramebufferRegs::LogicOp::NoOp` (value from the Pica
register definition; only its identity matters to the proofs). -/
def logicOpNoOp : Nat := 6

/-- Enumerator `Pica::FramebufferRegs::DepthFormat::D24S8`, the only Pica
depth-buffer format carrying a stencil component. -/
def depthFormatD24S8 : Nat := 3

/-- Enumerator `Pica::FramebufferRegs::CompareFunc::Always`. -/
def compareFuncAlways : Nat := 1

/-- The depth format supports stencil exactly when it is `D24S8` (mirrors
the comparison `depth_format == DepthFormat::D24S8` in `SyncDrawState`). -/
def depthFormatHasStencil (fmt : Nat) : Bool := fmt == depthFormatD24S8

/-- `regs.framebuffer.output_merger.stencil_test`. -/
structure StencilTestRegs where
  enable : Bool
  action_stencil_fail : Nat
  action_depth_pass : Nat
  action_depth_fail : Nat
  func : Nat
  reference_value : Nat
  input_mask : Nat
  write_mask : Nat
deriving Repr, DecidableEq

/-- `regs.framebuffer.output_merger`. -/
structure OutputMergerRegs where
  alphablend_enable : Bool
  blend_equation_rgb : Nat
  blend_equation_a : Nat
  factor_source_rgb : Nat
  factor_dest_rgb : Nat
  factor_source_a : Nat
  factor_dest_a : Nat
  blend_const : Nat
  logic_op : Nat
  depth_color_mask : Nat
  stencil_test : StencilTestRegs
  depth_test_enable : Nat
  depth_write_enable : Nat
  depth_test_func : Nat
deriving Repr, DecidableEq

/-- `regs.framebuffer.framebuffer` (the fields `SyncDrawState` reads;
`flipped` models the result of `IsFlipped()`). -/
structure FramebufferConfRegs where
  allow_color_write : Nat
  allow_depth_stencil_write : Nat
  depth_format : Nat
  flipped : Bool
deriving Repr, DecidableEq

/-- The slice of the register shadow read by `SyncDrawState`. -/
structure DrawStateRegs where
  cull_mode : Nat
  output_merger : OutputMergerRegs
  framebuffer : FramebufferConfRegs
deriving Repr, DecidableEq

/-- Device capabilities read by `SyncDrawState`
(`Instance::NeedsLogicOpEmulation`). -/
structure InstanceCaps where
  needs_logic_op_emulation : Bool
deriving Repr, DecidableEq

/-- The part of `PipelineInfo` written by `SyncDrawState`. -/
structure PipelineDrawState where
  cull_mode : Nat
  flip_viewport : Bool
  blend_enable : Bool
  color_blend_eq : Nat
  alpha_blend_eq : Nat
  src_color_blend_factor : Nat
  dst_color_blend_factor : Nat
  src_alpha_blend_factor : Nat
  dst_alpha_blend_factor : Nat
  blend_color : Nat
  logic_op : Nat
  color_write_mask : Nat
  stencil_test_enable : Bool
  stencil_fail_op : Nat
  stencil_pass_op : Nat
  stencil_depth_fail_op : Nat
  stencil_compare_op : Nat
  stencil_reference : Nat
  stencil_compare_mask : Nat
  stencil_write_mask : Nat
  depth_test_enable : Bool
  depth_compare_op : Nat
  depth_write_enable : Bool
deriving Repr, DecidableEq

/-- The depth-write-enable computation of `SyncDrawState`
(`allow_depth_stencil_write != 0 && depth_write_enable`); factored out to
make explicit that it depends on these two registers only. -/
def depthWriteEnableOf (allow_depth_stencil_write depth_write_enable : Nat) : Bool :=
  decide (allow_depth_stencil_write ≠ 0) && decide (depth_write_enable ≠ 0)

/-- `RasterizerVulkan::SyncDrawState` (lines 159-231), the pure computation
of the pipeline-state descriptor fields from the register shadow. -/
def syncDrawState (r : DrawStateRegs) (c : InstanceCaps) : PipelineDrawState :=
  let om := r.output_merger
  let fb := r.framebuffer
  -- SyncLogicOp / SyncColorWriteMask
  let is_logic_op_emulated := c.needs_logic_op_emulation && !om.alphablend_enable
  let is_logic_op_noop := om.logic_op == logicOpNoOp
  let color_write_mask :=
    if is_logic_op_emulated && is_logic_op_noop then
      -- Color output is disabled by logic operation; use the color write
      -- mask to skip color but allow depth write.
      0
    else
      if fb.allow_color_write ≠ 0 then (om.depth_color_mask >>> 8) &&& 0xF else 0
  -- SyncStencilTest
  let st := om.stencil_test
  let stencil_enable := st.enable && (fb.depth_format == depthFormatD24S8)
  -- SyncDepthTest
  let depth_test_enabled := (om.depth_test_enable == 1) || (om.depth_write_enable == 1)
  let depth_compare := if om.depth_test_enable == 1 then om.depth_test_func else compareFuncAlways
  { cull_mode := r.cull_mode
    flip_viewport := fb.flipped
    blend_enable := om.alphablend_enable
    color_blend_eq := om.blend_equation_rgb
    alpha_blend_eq := om.blend_equation_a
    src_color_blend_factor := om.factor_source_rgb
    dst_color_blend_factor := om.factor_dest_rgb
    src_alpha_blend_factor := om.factor_source_a
    dst_alpha_blend_factor := om.factor_dest_a
    blend_color := om.blend_const
    logic_op := om.logic_op
    color_write_mask := color_write_mask
    stencil_test_enable := stencil_enable
    stencil_fail_op := st.action_stencil_fail
    stencil_pass_op := st.action_depth_pass
    stencil_depth_fail_op := st.action_depth_fail
    stencil_compare_op := st.func
    stencil_reference := st.reference_value
    stencil_compare_mask := st.input_mask
    stencil_write_mask :=
      if fb.allow_depth_stencil_write ≠ 0 then st.write_mask else 0
    depth_test_enable := depth_test_enabled
    depth_compare_op := depth_compare
    depth_write_enable := depthWriteEnableOf fb.allow_depth_stencil_write om.depth_write_enable }

/-- Claim C1: when the device needs logic-op emulation, blending is disabled
and the logic op is NoOp, `SyncDrawState` forces the descriptor's color
write mask to 0, while the depth write enable is computed solely from
`allow_depth_stencil_write` and `depth_write_enable` and is the same for
every device capability state (hence unaffected by the forcing). -/
theorem C1_noop_logic_op_forces_color_mask (r : DrawStateRegs) (c : InstanceCaps)
    (hemu : c.needs_logic_op_emulation = true)
    (hblend : r.output_merger.alphablend_enable = false)
    (hnoop : r.output_merger.logic_op = logicOpNoOp) :
    (syncDrawState r c).color_write_mask = 0 ∧
    (syncDrawState r c).depth_write_enable =
      depthWriteEnableOf r.framebuffer.allow_depth_stencil_write
        r.output_merger.depth_write_enable ∧
    ∀ c₂ : InstanceCaps,
      (syncDrawState r c₂).depth_write_enable = (syncDrawState r c).depth_write_enable := by
  refine ⟨?_, rfl, fun c₂ => rfl⟩
  simp [syncDrawState, hemu, hblend, hnoop]

/-- Witness for C1 at a concrete register state. -/
theorem C1_noop_logic_op_forces_color_mask_witness :
    (syncDrawState
        { cull_mode := 0
          output_merger :=
            { alphablend_enable := false, blend_equation_rgb := 0, blend_equation_a := 0
              factor_source_rgb := 0, factor_dest_rgb := 0, factor_source_a := 0
              factor_dest_a := 0, blend_const := 0, logic_op := logicOpNoOp
              depth_color_mask := 0xF00
              stencil_test :=
                { enable := false, action_stencil_fail := 0, action_depth_pass := 0
                  action_depth_fail := 0, func := 0, reference_value := 0
                  input_mask := 0, write_mask := 0 }
              depth_test_enable := 0, depth_write_enable := 1, depth_test_func := 0 }
          framebuffer :=
            { allow_color_write := 1, allow_depth_stencil_write := 1
              depth_format := 0, flipped := false } }
        { needs_logic_op_emulation := true }).color_write_mask = 0 :=
  (C1_noop_logic_op_forces_color_mask _ _ rfl rfl rfl).1

/-- Claim C3: the descriptor's depth test enable bit is set iff the depth
compare test or the depth write is enabled, and the stencil test enable bit
is set iff stencil testing is requested and the bound depth format supports
stencil. -/
theorem C3_depth_stencil_test_enables (r : DrawStateRegs) (c : InstanceCaps) :
    ((syncDrawState r c).depth_test_enable = true ↔
      (r.output_merger.depth_test_enable = 1 ∨ r.output_merger.depth_write_enable = 1)) ∧
    ((syncDrawState r c).stencil_test_enable = true ↔
      (r.output_merger.stencil_test.enable = true ∧
        depthFormatHasStencil r.framebuffer.depth_format = true)) := by
  constructor
  · simp [syncDrawState]
  · simp [syncDrawState, depthFormatHasStencil]

/-! ## Uniform/LUT streamer

`RasterizerVulkan::UploadUniforms`, `SyncAndUploadLUTsLF` and
`SyncAndUploadLUTs`.  The `invalidate` flag is the wrap-occurred component
of the `StreamBuffer::Map` result, an input from the external ring buffer.
The dirty-mask constants `Lighting::LutAllDirty` / `ProcTex::TableAllDirty`
and the bit layout of `proctex.table_dirty` live in
`video_core/pica/pica_core.h`, which is not part of the given sources;
following the spec ("all lighting-LUT bits", "all proctex table bits") they
are modelled as all-bits-set masks over the table count. -/

/-- Dirty flags read by `RasterizerVulkan::UploadUniforms`
(`pica.vs_setup.uniforms_dirty`, `vs_data_dirty`, `fs_data_dirty`). -/
structure UniformDirtyFlags where
  vs_pica_uniforms_dirty : Bool
  vs_data_dirty : Bool
  fs_data_dirty : Bool
deriving Repr, DecidableEq

/-- Which uniform blocks one call of `UploadUniforms` wrote, and whether it
mapped the ring buffer at all. -/
structure UniformUploadResult where
  mapped : Bool
  uploaded_vs : Bool
  uploaded_fs : Bool
  uploaded_vs_pica : Bool
deriving Repr, DecidableEq

/-- `RasterizerVulkan::UploadUniforms` (lines 947-984): early-out when
nothing is dirty; otherwise map the uniform ring buffer and write each of
the three blocks when its flag is dirty or the map reported a wrap. -/
def uploadUniforms (accelerate_draw : Bool) (f : UniformDirtyFlags)
    (invalidate : Bool) : UniformUploadResult :=
  let sync_vs_pica := accelerate_draw && f.vs_pica_uniforms_dirty
  if !sync_vs_pica && !f.vs_data_dirty && !f.fs_data_dirty then
    { mapped := false, uploaded_vs := false, uploaded_fs := false, uploaded_vs_pica := false }
  else
    { mapped := true
      uploaded_vs := f.vs_data_dirty || invalidate
      uploaded_fs := f.fs_data_dirty || invalidate
      uploaded_vs_pica := sync_vs_pica || invalidate }

/-- `Pica::LightingRegs::NumLightingSampler`: number of lighting lookup
tables (24 on the Pica). -/
def numLightingSampler : Nat := 24

/-- Modelled from the spec: `Lighting::LutAllDirty` (pica_core.h is not in
the given sources) marks every one of the `numLightingSampler` lighting
lookup tables dirty, i.e. it is the all-bits-set 24-bit mask. -/
def lutAllDirty : Nat := 2 ^ numLightingSampler - 1

/-- Fuel-bounded `std::countr_zero` on a positive `Nat` (the caller in the
source only applies it to a non-zero dirty mask).  The fuel is the number
itself, which bounds the number of halvings. -/
def ctzFuel : Nat → Nat → Nat
  | 0, _ => 0
  | fuel + 1, n => if n % 2 = 1 ∨ n = 0 then 0 else ctzFuel fuel (n / 2) + 1

/-- `std::countr_zero` as used on the non-zero lighting dirty mask. -/
def ctz (n : Nat) : Nat := ctzFuel n n

/-- The `while (pica.lighting.lut_dirty)` loop of `SyncAndUploadLUTsLF`
(lines 843-856): repeatedly take the lowest set bit index of the dirty mask,
upload that table and clear the bit.  Clearing bit `ctz d` of `d` is
`d - (1 <<< ctz d)` since that bit is set (the source writes
`lut_dirty &= ~(1 << index)`).  The fuel is the mask itself: every
iteration removes at least 1 from the mask, so it never runs out before
the mask reaches 0, which is exactly the loop exit condition. -/
def popDirtyBits : Nat → Nat → List Nat
  | 0, _ => []
  | fuel + 1, d =>
    if d = 0 then []
    else ctz d :: popDirtyBits fuel (d - (1 <<< ctz d))

/-- State of the lighting/fog dirty flags
(`pica.lighting.lut_dirty`, `pica.fog.lut_dirty`). -/
structure LightingFogDirty where
  lighting_lut_dirty : Nat
  fog_lut_dirty : Bool
deriving Repr, DecidableEq

/-- Result of one call of `SyncAndUploadLUTsLF`: whether the texel ring
buffer was mapped, the lighting tables uploaded (in upload order), whether
the fog table was uploaded, and the final dirty state. -/
structure LfUploadResult where
  mapped : Bool
  lighting_uploaded : List Nat
  fog_uploaded : Bool
  final : LightingFogDirty
deriving Repr, DecidableEq

/-- `RasterizerVulkan::SyncAndUploadLUTsLF` (lines 825-871): early-out when
neither the lighting mask nor the fog flag is dirty; otherwise map the
buffer, force everything dirty on a wrap, then upload every dirty lighting
table and the fog table. -/
def syncAndUploadLUTsLF (st : LightingFogDirty) (invalidate : Bool) : LfUploadResult :=
  if st.lighting_lut_dirty = 0 ∧ st.fog_lut_dirty = false then
    { mapped := false, lighting_uploaded := [], fog_uploaded := false, final := st }
  else
    let d := if invalidate then lutAllDirty else st.lighting_lut_dirty
    let fog := if invalidate then true else st.fog_lut_dirty
    { mapped := true
      lighting_uploaded := popDirtyBits d d
      fog_uploaded := fog
      final := { lighting_lut_dirty := 0, fog_lut_dirty := false } }

/-- Modelled from the spec: the layout of `pica.proctex.table_dirty`
(pica_core.h is not in the given sources) — five per-table dirty bits
(noise, color map, alpha map, color lut, diff lut) aliased with the whole
mask, `TableAllDirty` setting all five. -/
structure ProcTexDirty where
  table_dirty : Nat
deriving Repr, DecidableEq

def ProcTexDirty.noise_lut_dirty (d : ProcTexDirty) : Bool := d.table_dirty.testBit 0

def ProcTexDirty.color_map_dirty (d : ProcTexDirty) : Bool := d.table_dirty.testBit 1

def ProcTexDirty.alpha_map_dirty (d : ProcTexDirty) : Bool := d.table_dirty.testBit 2

def ProcTexDirty.lut_dirty (d : ProcTexDirty) : Bool := d.table_dirty.testBit 3

def ProcTexDirty.diff_lut_dirty (d : ProcTexDirty) : Bool := d.table_dirty.testBit 4

/-- `ProcTex::TableAllDirty`: all five proctex table dirty bits. -/
def tableAllDirty : Nat := 0b11111

/-- Result of one call of `SyncAndUploadLUTs`: whether the texel ring
buffer was mapped and which of the five proctex tables were uploaded. -/
structure ProcTexUploadResult where
  mapped : Bool
  noise_uploaded : Bool
  color_map_uploaded : Bool
  alpha_map_uploaded : Bool
  lut_uploaded : Bool
  diff_lut_uploaded : Bool
  final_table_dirty : Nat
deriving Repr, DecidableEq

/-- `RasterizerVulkan::SyncAndUploadLUTs` (lines 873-945): early-out when
`pica.proctex.lut_dirty` is clear; otherwise map the buffer, force all
table bits dirty on a wrap, upload each dirty table, and clear the whole
mask at the end. -/
def syncAndUploadLUTs (st : ProcTexDirty) (invalidate : Bool) : ProcTexUploadResult :=
  if st.lut_dirty = false then
    { mapped := false, noise_uploaded := false, color_map_uploaded := false
      alpha_map_uploaded := false, lut_uploaded := false, diff_lut_uploaded := false
      final_table_dirty := st.table_dirty }
  else
    let d : ProcTexDirty := if invalidate then { table_dirty := tableAllDirty } else st
    { mapped := true
      noise_uploaded := d.noise_lut_dirty
      color_map_uploaded := d.color_map_dirty
      alpha_map_uploaded := d.alpha_map_dirty
      lut_uploaded := d.lut_dirty
      diff_lut_uploaded := d.diff_lut_dirty
      final_table_dirty := 0 }

/-- Popping dirty bits from the all-dirty lighting mask uploads every one of
the 24 lighting tables, in index order. -/
theorem popDirtyBits_all : popDirtyBits lutAllDirty lutAllDirty = List.range numLightingSampler := by
  decide

/-- Claim C2: a ring-buffer wrap (`invalidate` reported by `Map` during an
upload, i.e. past the early-out) forces a full re-upload — all three
uniform blocks, all 24 lighting tables plus the fog table, and all five
proctex tables. -/
theorem C2_wrap_forces_full_reupload (accelerate : Bool) (f : UniformDirtyFlags)
    (lf : LightingFogDirty) (pt : ProcTexDirty) :
    (((accelerate && f.vs_pica_uniforms_dirty) || f.vs_data_dirty || f.fs_data_dirty) = true →
      (uploadUniforms accelerate f true).uploaded_vs = true ∧
      (uploadUniforms accelerate f true).uploaded_fs = true ∧
      (uploadUniforms accelerate f true).uploaded_vs_pica = true) ∧
    (¬(lf.lighting_lut_dirty = 0 ∧ lf.fog_lut_dirty = false) →
      (syncAndUploadLUTsLF lf true).lighting_uploaded = List.range numLightingSampler ∧
      (syncAndUploadLUTsLF lf true).fog_uploaded = true) ∧
    (pt.lut_dirty = true →
      (syncAndUploadLUTs pt true).noise_uploaded = true ∧
      (syncAndUploadLUTs pt true).color_map_uploaded = true ∧
      (syncAndUploadLUTs pt true).alpha_map_uploaded = true ∧
      (syncAndUploadLUTs pt true).lut_uploaded = true ∧
      (syncAndUploadLUTs pt true).diff_lut_uploaded = true) := by
  refine ⟨?_, ?_, ?_⟩
  · intro h
    rcases f with ⟨fp, fv, ff⟩
    cases accelerate <;> cases fp <;> cases fv <;> cases ff <;>
      simp_all [uploadUniforms]
  · intro h
    simp only [syncAndUploadLUTsLF, if_neg h]
    exact ⟨popDirtyBits_all, rfl⟩
  · intro h
    simp only [ProcTexDirty.lut_dirty] at h
    simp [syncAndUploadLUTs, h, ProcTexDirty.noise_lut_dirty, ProcTexDirty.color_map_dirty,
      ProcTexDirty.alpha_map_dirty, ProcTexDirty.lut_dirty, ProcTexDirty.diff_lut_dirty,
      tableAllDirty]
    decide

/-- Witness for C2 at concrete dirty states. -/
theorem C2_wrap_forces_full_reupload_witness :
    (uploadUniforms true ⟨false, true, false⟩ true).uploaded_vs_pica = true ∧
    (syncAndUploadLUTsLF ⟨2, false⟩ true).fog_uploaded = true ∧
    (syncAndUploadLUTs ⟨8⟩ true).diff_lut_uploaded = true := by
  have h := C2_wrap_forces_full_reupload true ⟨false, true, false⟩ ⟨2, false⟩ ⟨8⟩
  exact ⟨(h.1 (by decide)).2.2, (h.2.1 (by decide)).2, (h.2.2 (by decide)).2.2.2.2⟩

/-! ## Vertex assembler: the per-loader guest-memory copy
(`RasterizerVulkan::SetupVertexArray`, lines 293-330)

Guest memory and the mapped streaming-buffer region are byte-addressed; a
copy is a list of `memcpy` operations applied in program order.  The source
performs one bulk `memcpy` of `data_size = byte_count * vertex_num` bytes
when the Vulkan-aligned stride equals the guest stride, and otherwise one
`memcpy` of `byte_count` bytes per vertex, re-packing each vertex at the
aligned stride. -/

/-- One `memcpy` into the mapped region: destination offset, source offset
(within the loader's guest data), byte length. -/
structure MemCpyOp where
  dst : Nat
  src : Nat
  len : Nat
deriving Repr, DecidableEq

/-- The copy operations issued for one attribute loader (lines 312-319). -/
def copyOps (byte_count aligned_stride vertex_num : Nat) : List MemCpyOp :=
  if aligned_stride = byte_count then
    [{ dst := 0, src := 0, len := byte_count * vertex_num }]
  else
    (List.range vertex_num).map fun v =>
      { dst := v * aligned_stride, src := v * byte_count, len := byte_count }

/-- Semantics of one `memcpy` over a partial destination memory (`none` =
byte never written). -/
def applyCpy (srcMem : Nat → Nat) (m : Nat → Option Nat) (op : MemCpyOp) : Nat → Option Nat :=
  fun i => if op.dst ≤ i ∧ i < op.dst + op.len then some (srcMem (op.src + (i - op.dst))) else m i

/-- Destination memory produced by running a copy-operation list in program
order over an initially unwritten region. -/
def runCopies (srcMem : Nat → Nat) (ops : List MemCpyOp) : Nat → Option Nat :=
  ops.foldl (applyCpy srcMem) fun _ => none

/-- One past the highest source byte offset any of the copies reads. -/
def srcReadHi (ops : List MemCpyOp) : Nat :=
  ops.foldr (fun op acc => max (op.src + op.len) acc) 0

theorem srcReadHi_foldr_base (l : List MemCpyOp) (c : Nat) :
    l.foldr (fun op acc => max (op.src + op.len) acc) c = max (srcReadHi l) c := by
  induction l with
  | nil => simp [srcReadHi]
  | cons op l ih =>
    simp only [srcReadHi, List.foldr_cons] at *
    rw [ih, Nat.max_assoc]

theorem srcReadHi_append_single (l : List MemCpyOp) (op : MemCpyOp) :
    srcReadHi (l ++ [op]) = max (srcReadHi l) (op.src + op.len) := by
  unfold srcReadHi
  rw [List.foldr_append]
  simp only [List.foldr_cons, List.foldr_nil, Nat.max_zero]
  exact srcReadHi_foldr_base l _

/-- Both branches of the loader copy read exactly the computed
`data_size = byte_count * vertex_num` source bytes. -/
theorem srcReadHi_copyOps (byte_count aligned_stride vertex_num : Nat) :
    srcReadHi (copyOps byte_count aligned_stride vertex_num) = byte_count * vertex_num := by
  unfold copyOps
  by_cases h : aligned_stride = byte_count
  · simp [h, srcReadHi]
  · simp only [h, if_false]
    induction vertex_num with
    | zero => simp [srcReadHi]
    | succ n ih =>
      rw [List.range_succ, List.map_append, List.map_cons, List.map_nil,
        srcReadHi_append_single, ih]
      have h1 : byte_count * n ≤ n * byte_count + byte_count := by
        rw [Nat.mul_comm]; omega
      rw [Nat.max_eq_right h1, Nat.mul_succ, Nat.mul_comm byte_count n]

/-- Re-packing: byte `v * aligned_stride + j` of the destination holds byte
`v * byte_count + j` of the guest source, for every vertex `v` and every
in-stride byte `j`. -/
theorem runCopies_repack (srcMem : Nat → Nat) (byte_count aligned_stride : Nat)
    (hba : byte_count ≤ aligned_stride) :
    ∀ (vertex_num v j : Nat), v < vertex_num → j < byte_count →
      ((List.range vertex_num).map fun v =>
          MemCpyOp.mk (v * aligned_stride) (v * byte_count) byte_count).foldl
        (applyCpy srcMem) (fun _ => none) (v * aligned_stride + j)
        = some (srcMem (v * byte_count + j)) := by
  intro vertex_num
  induction vertex_num with
  | zero => intro v j hv _; exact absurd hv (Nat.not_lt_zero v)
  | succ n ih =>
    intro v j hv hj
    rw [List.range_succ, List.map_append, List.foldl_append]
    simp only [List.map_cons, List.map_nil, List.foldl_cons, List.foldl_nil]
    by_cases hvn : v = n
    · subst hvn
      unfold applyCpy
      dsimp only
      rw [if_pos ⟨Nat.le_add_right _ _, by omega⟩]
      have harith : v * byte_count + (v * aligned_stride + j - v * aligned_stride)
          = v * byte_count + j := by omega
      rw [harith]
    · have hv' : v < n := Nat.lt_of_le_of_ne (Nat.lt_succ_iff.mp hv) hvn
      unfold applyCpy
      dsimp only
      rw [if_neg]
      · exact ih v j hv' hj
      · have h1 : v * aligned_stride + j < (v + 1) * aligned_stride := by
          have := Nat.lt_of_lt_of_le hj hba
          rw [Nat.succ_mul]; omega
        have h2 : (v + 1) * aligned_stride ≤ n * aligned_stride :=
          Nat.mul_le_mul_right aligned_stride hv'
        intro hcon
        exact absurd hcon.1 (by omega)

/-- Claim C4: with `aligned_stride = AlignUp(byte_count, stride_alignment)`,
when the aligned stride differs from the guest stride every vertex is
re-packed individually and the destination bytes at
`[v*aligned_stride, v*aligned_stride + byte_count)` equal the guest bytes
at `[v*byte_count, v*byte_count + byte_count)`; when they are equal the
whole region is one bulk copy reproducing the source verbatim. -/
theorem C4_vertex_repacking (srcMem : Nat → Nat)
    (byte_count stride_alignment vertex_num : Nat) (halign : 0 < stride_alignment) :
    (alignUp byte_count stride_alignment ≠ byte_count →
      ∀ v < vertex_num, ∀ j < byte_count,
        runCopies srcMem (copyOps byte_count (alignUp byte_count stride_alignment) vertex_num)
            (v * alignUp byte_count stride_alignment + j)
          = some (srcMem (v * byte_count + j))) ∧
    (alignUp byte_count stride_alignment = byte_count →
      copyOps byte_count (alignUp byte_count stride_alignment) vertex_num
          = [{ dst := 0, src := 0, len := byte_count * vertex_num }] ∧
      ∀ i < byte_count * vertex_num,
        runCopies srcMem (copyOps byte_count (alignUp byte_count stride_alignment) vertex_num) i
          = some (srcMem i)) := by
  constructor
  · intro hne v hv j hj
    have hba : byte_count ≤ alignUp byte_count stride_alignment :=
      le_alignUp byte_count stride_alignment halign
    unfold runCopies
    rw [copyOps, if_neg (fun h => hne h)]
    exact runCopies_repack srcMem byte_count _ hba vertex_num v j hv hj
  · intro heq
    refine ⟨by rw [copyOps, if_pos heq], ?_⟩
    intro i hi
    rw [copyOps, if_pos heq]
    unfold runCopies applyCpy
    simp only [List.foldl_cons, List.foldl_nil]
    rw [if_pos ⟨Nat.zero_le i, by omega⟩]
    have harith : 0 + (i - 0) = i := by omega
    rw [harith]

/-- Witness for C4 at `byte_count = 6`, `stride_alignment = 4` (so the
aligned stride is 8), two vertices, `srcMem = id`. -/
theorem C4_vertex_repacking_witness :
    runCopies (fun i => i) (copyOps 6 (alignUp 6 4) 2) (1 * alignUp 6 4 + 2)
      = some ((fun i : Nat => i) (1 * 6 + 2)) :=
  (C4_vertex_repacking (fun i => i) 6 4 2 (by decide)).1 (by decide) 1 (by decide) 2 (by decide)

/-! ## Vertex assembler: handling of out-of-range guest vertex ranges
(`RasterizerVulkan::SetupVertexArray`, lines 293-319)

`data_size = loader.byte_count * vertex_num`; when the guest-backed memory
at the source address (`src_ref.GetSize()`, here `avail`) is smaller than
`data_size` the source emits a `LOG_ERROR` diagnostic and then performs the
copy with the unchanged `data_size`; nothing is thrown and the draw
proceeds. -/

/-- Trace of one loader's guest-memory read: the computed size, whether the
out-of-range diagnostic was logged, and the copies performed. -/
structure LoaderReadTrace where
  data_size : Nat
  error_logged : Bool
  ops : List MemCpyOp
deriving Repr, DecidableEq

/-- The per-loader read of `SetupVertexArray`, with `avail` the available
guest-backed space `src_ref.GetSize()` at the source address. -/
def setupLoaderRead (byte_count vertex_num avail aligned_stride : Nat) : LoaderReadTrace :=
  let data_size := byte_count * vertex_num
  { data_size := data_size
    error_logged := decide (avail < data_size)
    ops := copyOps byte_count aligned_stride vertex_num }

/-- Counterexample to claim C5 as stated: with `byte_count = 4`, two
vertices and no available guest-backed space, the diagnostic is logged but
the read is NOT clamped to the available space — the copy still reads 8
source bytes. -/
theorem C5_no_clamping_counterexample :
    (setupLoaderRead 4 2 0 4).error_logged = true ∧
    ¬ srcReadHi (setupLoaderRead 4 2 0 4).ops ≤ 0 := by
  constructor
  · decide
  · intro h
    have h8 : srcReadHi (setupLoaderRead 4 2 0 4).ops = 8 := by decide
    omega

/-- Claim C5 (amended): when the computed source byte range does not fit in
available guest-backed memory, the condition is reported diagnostically and
neither an exception is raised nor the draw failed, but the read is not
clamped: the copy reads exactly the full computed `data_size` source bytes
regardless of `avail`. -/
theorem C5_oob_read_logged_not_clamped (byte_count vertex_num avail stride_alignment : Nat)
    (halign : 0 < stride_alignment) :
    ((setupLoaderRead byte_count vertex_num avail
        (alignUp byte_count stride_alignment)).error_logged = true ↔
      avail < byte_count * vertex_num) ∧
    srcReadHi (setupLoaderRead byte_count vertex_num avail
        (alignUp byte_count stride_alignment)).ops = byte_count * vertex_num := by
  refine ⟨?_, srcReadHi_copyOps _ _ _⟩
  simp [setupLoaderRead]

/-- Witness for the amended C5. -/
theorem C5_oob_read_logged_not_clamped_witness :
    (setupLoaderRead 4 2 0 (alignUp 4 4)).error_logged = true ∧
    srcReadHi (setupLoaderRead 4 2 0 (alignUp 4 4)).ops = 4 * 2 :=
  ⟨((C5_oob_read_logged_not_clamped 4 2 0 4 (by decide)).1).mpr (by decide),
    (C5_oob_read_logged_not_clamped 4 2 0 4 (by decide)).2⟩

/-! ## Draw orchestrator
(`RasterizerVulkan::Draw`, lines 533-618, and
`RasterizerVulkan::AccelerateDrawBatchInternal`, lines 457-488)

The orchestrator is modelled as a function returning its boolean result and
the ordered list of externally visible operations it performs (cache
acquisitions, pipeline-bind calls, scheduler-recorded commands). -/

inductive DrawAction where
  | getFramebufferSurfaces (using_color using_depth : Bool)
  | syncTextureUnitsStep
  | syncUtilityTexturesStep
  | useFragmentShaderStep
  | syncLUTsStep
  | uploadUniformBlocksStep
  | beginRendering
  | bindIndexBufferRecord
  | bindPipelineCall (must_wait : Bool)
  | drawRecorded (vertex_count : Nat) (indexed : Bool)
deriving Repr, DecidableEq

def DrawAction.isBindPipelineCall : DrawAction → Bool
  | .bindPipelineCall _ => true
  | _ => false

def DrawAction.isDrawRecorded : DrawAction → Bool
  | .drawRecorded _ _ => true
  | _ => false

/-- Per-draw inputs of the orchestrator that come from outside the
synchronized register slice: results of external collaborator calls and
the remaining register fields it reads. -/
structure DrawEnv where
  /-- `fb_helper.Framebuffer()->Handle()` is null (no attachment in use). -/
  fb_handle_null : Bool
  /-- The pipeline for the current descriptor has finished compiling. -/
  pipeline_ready : Bool
  /-- `Settings::values.async_shader_compilation`. -/
  async_shaders : Bool
  /-- `regs.pipeline.num_vertices`. -/
  num_vertices : Nat
  /-- `regs.framebuffer.IsShadowRendering()`. -/
  shadow_rendering : Bool
  /-- `regs.framebuffer.HasStencil()`. -/
  has_stencil : Bool
  /-- `regs.framebuffer.framebuffer.GetColorBufferPhysicalAddress()`. -/
  color_buffer_addr : Nat
  /-- `regs.framebuffer.framebuffer.GetDepthBufferPhysicalAddress()`. -/
  depth_buffer_addr : Nat
  /-- `pipeline_info.IsDepthWriteEnabled()` (helper in vk_pipeline_cache.h,
  not under the given sources). -/
  is_depth_write_enabled : Bool
  /-- `vertex_batch.size()` for the software path. -/
  sw_vertex_count : Nat
deriving Repr, DecidableEq

/-- `wait_built` of `AccelerateDrawBatchInternal` (line 462):
`!async_shaders || regs.pipeline.num_vertices <= 6`. -/
def waitBuilt (async_shaders : Bool) (num_vertices : Nat) : Bool :=
  !async_shaders || decide (num_vertices ≤ 6)

/-- Modelled from the spec: `PipelineCache::BindPipeline(info, wait_built)`
returns false only when compiling asynchronously (no wait requested) and
the pipeline is not yet ready. -/
def bindPipelineReturns (ready must_wait : Bool) : Bool := must_wait || ready

/-- `RasterizerVulkan::AccelerateDrawBatchInternal` (lines 457-488):
set up the index array when indexed, bind the pipeline with `wait_built`,
return true without recording a draw when the bind reports not-ready,
otherwise record the draw. -/
def accelerateDrawBatchInternal (env : DrawEnv) (is_indexed : Bool) :
    Bool × List DrawAction :=
  let pre := if is_indexed then [DrawAction.bindIndexBufferRecord] else []
  let must_wait := waitBuilt env.async_shaders env.num_vertices
  let acts := pre ++ [DrawAction.bindPipelineCall must_wait]
  if bindPipelineReturns env.pipeline_ready must_wait = false then
    (true, acts)
  else
    (true, acts ++ [DrawAction.drawRecorded env.num_vertices is_indexed])

/-- `RasterizerVulkan::Draw` (lines 533-618): sync the draw state, compute
color/depth framebuffer usage, acquire the framebuffer; if its handle is
null return success immediately; otherwise bind resources, upload
uniforms/LUTs, begin rendering and issue the accelerated or software
draw. -/
def rasterizerDraw (r : DrawStateRegs) (c : InstanceCaps) (env : DrawEnv)
    (accelerate is_indexed : Bool) : Bool × List DrawAction :=
  let info := syncDrawState r c
  let write_color_fb := env.shadow_rendering || decide (info.color_write_mask ≠ 0)
  let write_depth_fb := env.is_depth_write_enabled
  let using_color_fb := decide (env.color_buffer_addr ≠ 0) && write_color_fb
  let using_depth_fb := !env.shadow_rendering && decide (env.depth_buffer_addr ≠ 0) &&
    (write_depth_fb || decide (r.output_merger.depth_test_enable ≠ 0) ||
      (env.has_stencil && info.stencil_test_enable))
  let acts0 := [DrawAction.getFramebufferSurfaces using_color_fb using_depth_fb]
  if env.fb_handle_null then
    (true, acts0)
  else
    let acts1 := acts0 ++ [DrawAction.syncTextureUnitsStep, DrawAction.syncUtilityTexturesStep,
      DrawAction.useFragmentShaderStep, DrawAction.syncLUTsStep,
      DrawAction.uploadUniformBlocksStep, DrawAction.beginRendering]
    if accelerate then
      let res := accelerateDrawBatchInternal env is_indexed
      (res.1, acts1 ++ res.2)
    else
      (true, acts1 ++ [DrawAction.bindPipelineCall true,
        DrawAction.drawRecorded env.sw_vertex_count false])

/-- Claim C6: when the resolved framebuffer handle is null, `Draw` performs
no rendering work — no pipeline bind and no draw is recorded — and still
returns true. -/
theorem C6_null_framebuffer_silent_success (r : DrawStateRegs) (c : InstanceCaps)
    (env : DrawEnv) (accelerate is_indexed : Bool)
    (h : env.fb_handle_null = true) :
    (rasterizerDraw r c env accelerate is_indexed).1 = true ∧
    (rasterizerDraw r c env accelerate is_indexed).2.countP DrawAction.isBindPipelineCall = 0 ∧
    (rasterizerDraw r c env accelerate is_indexed).2.countP DrawAction.isDrawRecorded = 0 := by
  simp [rasterizerDraw, h, List.countP, List.countP.go, DrawAction.isBindPipelineCall,
    DrawAction.isDrawRecorded]

/-- Witness for C6. -/
theorem C6_null_framebuffer_silent_success_witness :
    (rasterizerDraw
        ⟨0, ⟨false, 0, 0, 0, 0, 0, 0, 0, 0, 0, ⟨false, 0, 0, 0, 0, 0, 0, 0⟩, 0, 0, 0⟩,
          ⟨0, 0, 0, false⟩⟩
        ⟨false⟩ ⟨true, false, false, 3, false, false, 0, 0, false, 0⟩
        true false).1 = true :=
  (C6_null_framebuffer_silent_success _ _ _ _ _ rfl).1

/-- Claim C7: `wait_built` is true exactly when asynchronous shader
compilation is disabled or the draw has at most 6 vertices; the pipeline
bind is called exactly once with that flag; and when the bind does not
wait and the pipeline is not compiled, the draw is skipped (nothing
recorded) while still returning true. -/
theorem C7_async_pipeline_skip (env : DrawEnv) (is_indexed : Bool) :
    (waitBuilt env.async_shaders env.num_vertices = true ↔
      (env.async_shaders = false ∨ env.num_vertices ≤ 6)) ∧
    ((accelerateDrawBatchInternal env is_indexed).2.countP DrawAction.isBindPipelineCall = 1 ∧
      DrawAction.bindPipelineCall (waitBuilt env.async_shaders env.num_vertices)
        ∈ (accelerateDrawBatchInternal env is_indexed).2) ∧
    (env.async_shaders = true → 6 < env.num_vertices → env.pipeline_ready = false →
      (accelerateDrawBatchInternal env is_indexed).1 = true ∧
      (accelerateDrawBatchInternal env is_indexed).2.countP DrawAction.isDrawRecorded = 0) := by
  refine ⟨?_, ⟨?_, ?_⟩, ?_⟩
  · cases ha : env.async_shaders <;> simp [waitBuilt]
  · unfold accelerateDrawBatchInternal
    cases hb : bindPipelineReturns env.pipeline_ready
        (waitBuilt env.async_shaders env.num_vertices) <;>
      cases is_indexed <;>
        simp [hb, List.countP, List.countP.go, DrawAction.isBindPipelineCall]
  · unfold accelerateDrawBatchInternal
    cases hb : bindPipelineReturns env.pipeline_ready
        (waitBuilt env.async_shaders env.num_vertices) <;>
      cases is_indexed <;> simp [hb]
  · intro ha hn hr
    have hw : waitBuilt env.async_shaders env.num_vertices = false := by
      simp [waitBuilt, ha]; omega
    unfold accelerateDrawBatchInternal
    rw [hw, hr]
    cases is_indexed <;>
      simp [bindPipelineReturns, List.countP, List.countP.go, DrawAction.isDrawRecorded]

/-- Witness for C7 at a concrete environment (async on, 7 vertices,
pipeline not ready). -/
theorem C7_async_pipeline_skip_witness :
    (accelerateDrawBatchInternal ⟨false, false, true, 7, false, false, 0, 0, false, 0⟩
        false).2.countP DrawAction.isDrawRecorded = 0 :=
  ((C7_async_pipeline_skip ⟨false, false, true, 7, false, false, 0, 0, false, 0⟩
      false).2.2 rfl (by decide) rfl).2

/-! ## Resource binder: texture units
(`RasterizerVulkan::SyncTextureUnits`, lines 620-674, `BindShadowCube`,
lines 686-707, and `BindTextureCube`, lines 709-727)

The model records the ordered surface-cache resolution calls and the
descriptor-queue image-sampler updates one call of `SyncTextureUnits`
issues.  Surfaces are identified symbolically by the resolution call that
produced them. -/

/-- `Pica::TexturingRegs::TextureConfig::TextureType` values that the unit-0
dispatch distinguishes. -/
inductive TexUnitType where
  | texture2D
  | textureCube
  | shadow2D
  | projection2D
  | shadowCube
deriving Repr, DecidableEq

/-- One entry of `regs.texturing.GetTextures()`: the enable bit and the
config fields the binder reads. -/
structure TexUnitConfig where
  enabled : Bool
  ttype : TexUnitType
  width : Nat
  /-- `config.lod.max_level`. -/
  max_level : Nat
  format : Nat
deriving Repr, DecidableEq

/-- The six cube faces, in the order of the `faces` array of
`BindShadowCube` (also the descriptor binding index used per face). -/
inductive CubeFaceName where
  | positiveX
  | negativeX
  | positiveY
  | negativeY
  | positiveZ
  | negativeZ
deriving Repr, DecidableEq

def cubeFaceList : List CubeFaceName :=
  [.positiveX, .negativeX, .positiveY, .negativeY, .positiveZ, .negativeZ]

def CubeFaceName.index : CubeFaceName → Nat
  | .positiveX => 0
  | .negativeX => 1
  | .positiveY => 2
  | .negativeY => 3
  | .positiveZ => 4
  | .negativeZ => 5

/-- `VideoCore::TextureCubeConfig` as filled by `BindTextureCube`. -/
structure TextureCubeConfig where
  px : Nat
  nx : Nat
  py : Nat
  ny : Nat
  pz : Nat
  nz : Nat
  width : Nat
  levels : Nat
  format : Nat
deriving Repr, DecidableEq

/-- A surface-cache resolution call issued by the binder. -/
inductive CacheCall where
  | getNullSurface
  | getNullSampler
  | getTextureSurface (unit : Nat)
  | getShadowFaceSurface (face : CubeFaceName)
  | getTextureCube (config : TextureCubeConfig)
  | getSampler (unit : Nat)
deriving Repr, DecidableEq

def CacheCall.isGetTextureCube : CacheCall → Bool
  | .getTextureCube _ => true
  | _ => false

/-- The view an image-sampler descriptor update points at. -/
inductive TexViewSrc where
  | nullView
  | shadow2DStorageView
  | shadowFaceStorageView (face : CubeFaceName)
  | cubeImageView (config : TextureCubeConfig)
  | generalImageView (unit : Nat)
  | feedbackCopyView (unit : Nat)
deriving Repr, DecidableEq

/-- One `update_queue.AddImageSampler(texture_set, unit, binding, view,
sampler)` call. -/
structure ImageSamplerUpdate where
  unit : Nat
  binding : Nat
  src : TexViewSrc
deriving Repr, DecidableEq

/-- The texturing register slice the binder reads besides the unit
configurations: the six cube-face physical addresses
(`regs.texturing.GetCubePhysicalAddress`). -/
structure TexturingRegsModel where
  cube_addr : CubeFaceName → Nat

/-- `RasterizerVulkan::BindShadowCube`: resolve and bind all six faces as
shadow-map storage views, one descriptor binding per face. -/
def bindShadowCube : List CacheCall × List ImageSamplerUpdate :=
  ([CacheCall.getSampler 0] ++ cubeFaceList.map CacheCall.getShadowFaceSurface,
    cubeFaceList.map fun face =>
      { unit := 0, binding := face.index, src := TexViewSrc.shadowFaceStorageView face })

/-- `RasterizerVulkan::BindTextureCube`: build the combined-cube key from
the six face addresses, the configured width, `max_level + 1` levels and
the format, resolve it once, and bind the result once. -/
def bindTextureCube (t : TexturingRegsModel) (u : TexUnitConfig) :
    List CacheCall × List ImageSamplerUpdate :=
  let config : TextureCubeConfig :=
    { px := t.cube_addr .positiveX
      nx := t.cube_addr .negativeX
      py := t.cube_addr .positiveY
      ny := t.cube_addr .negativeY
      pz := t.cube_addr .positiveZ
      nz := t.cube_addr .negativeZ
      width := u.width
      levels := u.max_level + 1
      format := u.format }
  ([CacheCall.getTextureCube config, CacheCall.getSampler 0],
    [{ unit := 0, binding := 0, src := TexViewSrc.cubeImageView config }])

/-- One iteration of the `SyncTextureUnits` loop for unit `idx` with
configuration `u`; `feedback` tells whether the resolved surface's color
view aliases the bound framebuffer's color view. -/
def syncTextureUnit (t : TexturingRegsModel) (idx : Nat) (u : TexUnitConfig)
    (feedback : Bool) : List CacheCall × List ImageSamplerUpdate :=
  if !u.enabled then
    ([CacheCall.getNullSurface, CacheCall.getNullSampler],
      [{ unit := idx, binding := 0, src := TexViewSrc.nullView }])
  else if idx = 0 ∧ u.ttype = TexUnitType.shadow2D then
    ([CacheCall.getTextureSurface idx, CacheCall.getSampler idx],
      [{ unit := idx, binding := 0, src := TexViewSrc.shadow2DStorageView }])
  else if idx = 0 ∧ u.ttype = TexUnitType.shadowCube then
    bindShadowCube
  else if idx = 0 ∧ u.ttype = TexUnitType.textureCube then
    bindTextureCube t u
  else
    ([CacheCall.getTextureSurface idx, CacheCall.getSampler idx],
      [{ unit := idx, binding := 0,
         src := if feedback then TexViewSrc.feedbackCopyView idx
                else TexViewSrc.generalImageView idx }])

/-- `RasterizerVulkan::SyncTextureUnits`: the loop over the three units of
`regs.texturing.GetTextures()`. -/
def syncTextureUnits (t : TexturingRegsModel) (u0 u1 u2 : TexUnitConfig)
    (feedback : Nat → Bool) : List CacheCall × List ImageSamplerUpdate :=
  let r0 := syncTextureUnit t 0 u0 (feedback 0)
  let r1 := syncTextureUnit t 1 u1 (feedback 1)
  let r2 := syncTextureUnit t 2 u2 (feedback 2)
  (r0.1 ++ r1.1 ++ r2.1, r0.2 ++ r1.2 ++ r2.2)

/-- Claim C8: with unit 0 enabled and configured as TextureCube, the binder
issues exactly one combined-cube resolution keyed by the six face
addresses, the width, `max_level + 1` levels and the format, and binds the
resulting cube surface with exactly one unit-0 image-sampler update. -/
theorem C8_texture_cube_single_resolution (t : TexturingRegsModel)
    (u0 u1 u2 : TexUnitConfig) (feedback : Nat → Bool)
    (hen : u0.enabled = true) (hty : u0.ttype = TexUnitType.textureCube) :
    ((syncTextureUnits t u0 u1 u2 feedback).1.countP CacheCall.isGetTextureCube = 1 ∧
      CacheCall.getTextureCube
        { px := t.cube_addr .positiveX, nx := t.cube_addr .negativeX
          py := t.cube_addr .positiveY, ny := t.cube_addr .negativeY
          pz := t.cube_addr .positiveZ, nz := t.cube_addr .negativeZ
          width := u0.width, levels := u0.max_level + 1, format := u0.format }
        ∈ (syncTextureUnits t u0 u1 u2 feedback).1) ∧
    ((syncTextureUnits t u0 u1 u2 feedback).2.countP (fun upd => upd.unit == 0) = 1 ∧
      { unit := 0, binding := 0
        src := TexViewSrc.cubeImageView
          { px := t.cube_addr .positiveX, nx := t.cube_addr .negativeX
            py := t.cube_addr .positiveY, ny := t.cube_addr .negativeY
            pz := t.cube_addr .positiveZ, nz := t.cube_addr .negativeZ
            width := u0.width, levels := u0.max_level + 1, format := u0.format } }
        ∈ (syncTextureUnits t u0 u1 u2 feedback).2) := by
  unfold syncTextureUnits syncTextureUnit bindTextureCube
  cases h1 : u1.enabled <;> cases h2 : u2.enabled <;>
    simp [hen, hty, List.countP_append, List.countP, List.countP.go,
      CacheCall.isGetTextureCube]

/-- Witness for C8 at a concrete texturing configuration. -/
theorem C8_texture_cube_single_resolution_witness :
    ((syncTextureUnits ⟨fun f => f.index + 100⟩ ⟨true, .textureCube, 64, 2, 5⟩
        ⟨false, .texture2D, 0, 0, 0⟩ ⟨false, .texture2D, 0, 0, 0⟩
        (fun _ => false)).1.countP CacheCall.isGetTextureCube = 1) :=
  (C8_texture_cube_single_resolution ⟨fun f => f.index + 100⟩ ⟨true, .textureCube, 64, 2, 5⟩
      ⟨false, .texture2D, 0, 0, 0⟩ ⟨false, .texture2D, 0, 0, 0⟩ (fun _ => false)
      rfl rfl).1.1

/-! ## Index array setup (`RasterizerVulkan::SetupIndexArray`, lines 490-517)

Guest index memory is a byte function; the staged buffer is the list of
index values as interpreted under the chosen Vulkan index type. -/

inductive VkIndexType where
  | uint8EXT
  | uint16
deriving Repr, DecidableEq

/-- Result of `SetupIndexArray`: staged buffer size in bytes, the bound
index type, and the staged index values in order. -/
structure IndexArrayResult where
  index_buffer_size : Nat
  index_type : VkIndexType
  staged : List Nat
deriving Repr, DecidableEq

/-- `RasterizerVulkan::SetupIndexArray`.  `index_format_u8` is
`regs.pipeline.index_array.format == 0`; `native_u8_supported` is
`instance.IsIndexTypeUint8Supported()`; `index_data i` is the guest byte at
offset `i` of the index array (reads are `u8`, hence `% 256`).  In the
widening branch each 8-bit index is written as a 16-bit value; in the
`memcpy` branch the staged bytes are reinterpreted under the chosen index
type (16-bit values little-endian). -/
def setupIndexArray (index_format_u8 native_u8_supported : Bool) (num_vertices : Nat)
    (index_data : Nat → Nat) : IndexArrayResult :=
  let index_u8 := index_format_u8
  let native_u8 := index_u8 && native_u8_supported
  let index_buffer_size := num_vertices * (if native_u8 then 1 else 2)
  let index_type := if native_u8 then VkIndexType.uint8EXT else VkIndexType.uint16
  if index_u8 && !native_u8 then
    { index_buffer_size := index_buffer_size
      index_type := index_type
      staged := (List.range num_vertices).map fun i => index_data i % 256 }
  else
    { index_buffer_size := index_buffer_size
      index_type := index_type
      staged :=
        match index_type with
        | VkIndexType.uint8EXT => (List.range num_vertices).map fun i => index_data i % 256
        | VkIndexType.uint16 => (List.range num_vertices).map fun i =>
            index_data (2 * i) % 256 + 256 * (index_data (2 * i + 1) % 256) }

/-- Claim C10: with an 8-bit guest index format and no native 8-bit index
support, the staged buffer is 2 bytes per vertex with index type uint16,
and each staged 16-bit index equals the guest 8-bit index at the same
position. -/
theorem C10_index_widening_value_preserving (num_vertices : Nat) (index_data : Nat → Nat) :
    (setupIndexArray true false num_vertices index_data).index_buffer_size
        = 2 * num_vertices ∧
    (setupIndexArray true false num_vertices index_data).index_type = VkIndexType.uint16 ∧
    ∀ i < num_vertices,
      (setupIndexArray true false num_vertices index_data).staged.get? i
        = some (index_data i % 256) := by
  refine ⟨by simp [setupIndexArray, Nat.mul_comm], by simp [setupIndexArray], ?_⟩
  intro i hi
  simp only [setupIndexArray, Bool.and_false, Bool.not_false, Bool.and_true, if_true,
    Bool.and_self, if_false, Bool.false_eq_true, reduceIte]
  rw [List.get?_eq_getElem?, List.getElem?_map, List.getElem?_range hi]
  rfl

/-- Witness for C10 (the inner quantification carries bounds): at three
vertices and `index_data = id`, position 2 stages the value 2. -/
theorem C10_index_widening_value_preserving_witness :
    (setupIndexArray true false 3 (fun i => i)).staged.get? 2
      = some ((fun i : Nat => i) 2 % 256) :=
  (C10_index_widening_value_preserving 3 (fun i => i)).2.2 2 (by decide)

/-! ## Vertex assembler: attribute layout construction
(`RasterizerVulkan::SetupVertexArray`, lines 233-291 — the loader-decoding
pass — and `RasterizerVulkan::SetupFixedAttribs`, lines 338-397)

The register accessors (`GetComponent`, `GetNumElements`,
`GetElementSizeInBytes`, `GetStride`, `GetFormat`, `IsDefaultAttribute`,
`GetRegisterForAttribute`) decode Pica registers declared outside the given
sources and are taken as opaque inputs of the model.  `V` is the carrier
type for four-float vectors (the guest default attribute values and the
constant `(0, 0, 0, 1)`); the code only moves these values, never computes
with them. -/

/-- One `VertexAttribute` of the produced layout. -/
structure VertexAttributeEntry where
  binding : Nat
  location : Nat
  offset : Nat
  fmt : Nat
  size : Nat
deriving Repr, DecidableEq

/-- `Pica::PipelineRegs::VertexAttributeFormat::FLOAT`. -/
def vertexAttributeFormatFLOAT : Nat := 3

/-- `sizeof(Common::Vec4f)`. -/
def vec4fSize : Nat := 16

/-- One of the 12 attribute loaders
(`regs.pipeline.vertex_attributes.attribute_loaders`). -/
structure AttributeLoaderRegs where
  component_count : Nat
  byte_count : Nat
  data_offset : Nat
  /-- `loader.GetComponent comp`. -/
  components : Nat → Nat

/-- The vertex-attribute register accessors plus the guest default
attribute values read by the two passes. -/
structure VertexAttributesModel (V : Type) where
  attribute_loaders : List AttributeLoaderRegs
  /-- `vertex_attributes.GetNumElements`. -/
  numElements : Nat → Nat
  /-- `vertex_attributes.GetElementSizeInBytes`. -/
  elementSize : Nat → Nat
  /-- `vertex_attributes.GetStride`. -/
  strideOf : Nat → Nat
  /-- `vertex_attributes.GetFormat`. -/
  formatOf : Nat → Nat
  /-- `regs.vs.GetRegisterForAttribute`. -/
  regForAttribute : Nat → Nat
  /-- `vertex_attributes.IsDefaultAttribute`. -/
  isDefaultAttribute : Nat → Bool
  /-- `pica.input_default_attributes[i]` converted to four floats. -/
  input_default_attribute : Nat → V
  /-- The constant `default_attrib{0.f, 0.f, 0.f, 1.f}`. -/
  default_attrib : V

/-- Layout state threaded through the loader pass: the 16 attribute slots
(indexed by shader input location), the `enable_attributes` array and the
running `layout.binding_count`. -/
structure VertexArrayState where
  attrs : Nat → VertexAttributeEntry
  enable : Nat → Bool
  binding_count : Nat

/-- The body of the component loop of `SetupVertexArray` (lines 262-291):
padding ids 12-15 advance the 4-byte-aligned offset, empty attributes are
skipped, real attributes are aligned to their element size, recorded at the
shader input register and marked enabled. -/
def processComp {V : Type} (p : VertexAttributesModel V) (ld : AttributeLoaderRegs)
    (acc : Nat × VertexArrayState) (comp : Nat) : Nat × VertexArrayState :=
  let offset := acc.1
  let s := acc.2
  let attribute_index := ld.components comp
  if 12 ≤ attribute_index then
    (alignUp offset 4 + (attribute_index - 11) * 4, s)
  else if p.numElements attribute_index = 0 then
    acc
  else
    let offset2 := alignUp offset (p.elementSize attribute_index)
    let input_reg := p.regForAttribute attribute_index
    (offset2 + p.strideOf attribute_index,
      { attrs := Function.update s.attrs input_reg
          { binding := s.binding_count, location := input_reg, offset := offset2
            fmt := p.formatOf attribute_index, size := p.numElements attribute_index }
        enable := Function.update s.enable input_reg true
        binding_count := s.binding_count })

/-- One iteration of the loader loop (lines 255-330, attribute part):
loaders with no components or zero stride are skipped; otherwise the
component loop runs (`comp < component_count && comp < 12`) and the
loader's binding is allocated (`layout.binding_count++`). -/
def processLoader {V : Type} (p : VertexAttributesModel V) (s : VertexArrayState)
    (ld : AttributeLoaderRegs) : VertexArrayState :=
  if ld.component_count = 0 ∨ ld.byte_count = 0 then s
  else
    let s2 := ((List.range (min ld.component_count 12)).foldl (processComp p ld) (0, s)).2
    { s2 with binding_count := s2.binding_count + 1 }

/-- `layout.binding_count = 0; enable_attributes.fill(false)` (lines
250-252); the 16 attribute slots start out in an arbitrary (zeroed)
state. -/
def initVertexArrayState : VertexArrayState :=
  { attrs := fun _ => { binding := 0, location := 0, offset := 0, fmt := 0, size := 0 }
    enable := fun _ => false
    binding_count := 0 }

/-- The loader-decoding pass of `SetupVertexArray`. -/
def setupVertexArrayLayout {V : Type} (p : VertexAttributesModel V) : VertexArrayState :=
  p.attribute_loaders.foldl (processLoader p) initVertexArrayState

/-- State threaded through `SetupFixedAttribs`: the attribute slots, the
enable array, the running byte offset into the fixed binding and the
contents of the fixed binding's buffer (one `V` per 16-byte slot). -/
structure FixedAttribState (V : Type) where
  attrs : Nat → VertexAttributeEntry
  enable : Nat → Bool
  offset : Nat
  buf : List V

/-- The body of the default-attribute loop of `SetupFixedAttribs` (lines
352-374): a default attribute whose shader register is still unresolved
gets the guest default value appended to the fixed buffer and an attribute
entry on the fixed binding at the current offset. -/
def fixedStep {V : Type} (p : VertexAttributesModel V) (B : Nat)
    (st : FixedAttribState V) (i : Nat) : FixedAttribState V :=
  if p.isDefaultAttribute i then
    let reg := p.regForAttribute i
    if st.enable reg then st
    else
      { attrs := Function.update st.attrs reg
          { binding := B, location := reg, offset := st.offset
            fmt := vertexAttributeFormatFLOAT, size := 4 }
        enable := Function.update st.enable reg true
        offset := st.offset + vec4fSize
        buf := st.buf ++ [p.input_default_attribute i] }
  else st

/-- The attribute entry assigned to a still-disabled location by the final
loop of `SetupFixedAttribs` (lines 379-388): the fixed binding at offset 0,
where the constant `(0, 0, 0, 1)` lives. -/
def disabledAttr (B i : Nat) : VertexAttributeEntry :=
  { binding := B, location := i, offset := 0, fmt := vertexAttributeFormatFLOAT, size := 4 }

/-- Start state of `SetupFixedAttribs` (lines 342-351): the layout state
carried over from the loader pass, the constant `(0, 0, 0, 1)` written at
offset 0 of the fixed buffer, and `offset = sizeof(Vec4f)`. -/
def fixedInitState {V : Type} (p : VertexAttributesModel V) (s1 : VertexArrayState) :
    FixedAttribState V :=
  { attrs := s1.attrs, enable := s1.enable, offset := vec4fSize, buf := [p.default_attrib] }

/-- The default-attribute loop of `SetupFixedAttribs` over the 16 attribute
indices. -/
def defaultPass {V : Type} (p : VertexAttributesModel V) (B : Nat)
    (st0 : FixedAttribState V) : FixedAttribState V :=
  (List.range 16).foldl (fixedStep p B) st0

/-- The disabled-attribute loop of `SetupFixedAttribs` over the 16 shader
input locations. -/
def disabledPass (B : Nat) (en : Nat → Bool) (attrs : Nat → VertexAttributeEntry) :
    Nat → VertexAttributeEntry :=
  (List.range 16).foldl
    (fun a i => if en i then a else Function.update a i (disabledAttr B i)) attrs

/-- `RasterizerVulkan::SetupFixedAttribs`: place the constant
`(0, 0, 0, 1)` at offset 0 of the fixed buffer, run the default-attribute
loop, then point every remaining disabled location at offset 0, and
allocate the fixed binding (`layout.binding_count++`); returns the final
state and the final binding count. -/
def setupFixedAttribs {V : Type} (p : VertexAttributesModel V) (s1 : VertexArrayState) :
    FixedAttribState V × Nat :=
  let B := s1.binding_count
  let st1 := defaultPass p B (fixedInitState p s1)
  ({ st1 with attrs := disabledPass B st1.enable st1.attrs }, B + 1)

/-- The vertex layout produced by `SetupVertexArray` followed by
`SetupFixedAttribs`. -/
def finalLayout {V : Type} (p : VertexAttributesModel V) : FixedAttribState V :=
  (setupFixedAttribs p (setupVertexArrayLayout p)).1

/-- Invariant of the loader pass: every enabled location holds an entry
whose `location` is that location and whose binding is one of the already
allocated loader bindings. -/
def Pass1Inv (s : VertexArrayState) : Prop :=
  ∀ i, s.enable i = true → (s.attrs i).location = i ∧ (s.attrs i).binding < s.binding_count

theorem processComp_inv {V : Type} (p : VertexAttributesModel V) (ld : AttributeLoaderRegs)
    (bc : Nat) (acc : Nat × VertexArrayState) (comp : Nat)
    (h : acc.2.binding_count = bc ∧ ∀ i, acc.2.enable i = true →
      (acc.2.attrs i).location = i ∧ (acc.2.attrs i).binding ≤ bc) :
    (processComp p ld acc comp).2.binding_count = bc ∧
    ∀ i, (processComp p ld acc comp).2.enable i = true →
      ((processComp p ld acc comp).2.attrs i).location = i ∧
      ((processComp p ld acc comp).2.attrs i).binding ≤ bc := by
  obtain ⟨off, s⟩ := acc
  obtain ⟨hbc, hi⟩ := h
  dsimp at hbc hi
  unfold processComp
  by_cases h12 : 12 ≤ ld.components comp
  · simpa [h12] using ⟨hbc, hi⟩
  · by_cases h0 : p.numElements (ld.components comp) = 0
    · simpa [h12, h0] using ⟨hbc, hi⟩
    · simp only [h12, h0, if_false]
      refine ⟨hbc, ?_⟩
      intro i hen
      by_cases heq : i = p.regForAttribute (ld.components comp)
      · subst heq
        rw [Function.update_same]
        exact ⟨rfl, hbc ▸ Nat.le_refl bc⟩
      · rw [Function.update_noteq heq] at hen ⊢
        exact hi i hen

theorem processLoader_inv {V : Type} (p : VertexAttributesModel V) (s : VertexArrayState)
    (ld : AttributeLoaderRegs) (h : Pass1Inv s) : Pass1Inv (processLoader p s ld) := by
  unfold processLoader
  by_cases hskip : ld.component_count = 0 ∨ ld.byte_count = 0
  · simpa [hskip] using h
  · simp only [hskip, if_false]
    have hfold := foldl_preserve
      (P := fun acc : Nat × VertexArrayState => acc.2.binding_count = s.binding_count ∧
        ∀ i, acc.2.enable i = true →
          (acc.2.attrs i).location = i ∧ (acc.2.attrs i).binding ≤ s.binding_count)
      (fun acc comp hacc => processComp_inv p ld s.binding_count acc comp hacc)
      (List.range (min ld.component_count 12)) (0, s)
      ⟨rfl, fun i hi => ⟨(h i hi).1, Nat.le_of_lt (h i hi).2⟩⟩
    obtain ⟨hbc, hall⟩ := hfold
    intro i hen
    dsimp only at hen ⊢
    obtain ⟨hloc, hble⟩ := hall i hen
    exact ⟨hloc, by omega⟩

/-- The loader pass establishes its invariant. -/
theorem setupVertexArrayLayout_inv {V : Type} (p : VertexAttributesModel V) :
    Pass1Inv (setupVertexArrayLayout p) := by
  unfold setupVertexArrayLayout
  exact foldl_preserve (fun s ld hs => processLoader_inv p s ld hs)
    p.attribute_loaders initVertexArrayState
    (fun i hi => by simp [initVertexArrayState] at hi)

/-- The default-attribute loop keeps `offset` equal to 16 bytes per buffer
slot and the buffer non-empty. -/
theorem fixedStep_inv {V : Type} (p : VertexAttributesModel V) (B : Nat)
    (st : FixedAttribState V) (i : Nat)
    (h : st.offset = vec4fSize * st.buf.length ∧ st.buf ≠ []) :
    (fixedStep p B st i).offset = vec4fSize * (fixedStep p B st i).buf.length ∧
    (fixedStep p B st i).buf ≠ [] := by
  obtain ⟨hoff, hne⟩ := h
  unfold fixedStep
  by_cases hdef : p.isDefaultAttribute i
  · by_cases hen : st.enable (p.regForAttribute i)
    · simpa [hdef, hen] using ⟨hoff, hne⟩
    · simp only [hdef, hen, if_true, if_false, Bool.false_eq_true]
      refine ⟨?_, by simp⟩
      dsimp
      rw [List.length_append, List.length_cons, List.length_nil, hoff, Nat.mul_add, vec4fSize]
  · simpa [hdef] using ⟨hoff, hne⟩

/-- Once a location is enabled, the rest of the default-attribute loop
leaves its entry and enable bit untouched. -/
theorem fixedFold_preserves_enabled {V : Type} (p : VertexAttributesModel V) (B : Nat) :
    ∀ (l : List Nat) (st : FixedAttribState V) (i : Nat), st.enable i = true →
      (l.foldl (fixedStep p B) st).enable i = true ∧
      (l.foldl (fixedStep p B) st).attrs i = st.attrs i := by
  intro l
  induction l with
  | nil => intro st i h; exact ⟨h, rfl⟩
  | cons a l ih =>
    intro st i h
    rw [List.foldl_cons]
    have hstep : (fixedStep p B st a).enable i = true ∧
        (fixedStep p B st a).attrs i = st.attrs i := by
      unfold fixedStep
      by_cases hdef : p.isDefaultAttribute a
      · by_cases hen : st.enable (p.regForAttribute a)
        · rw [if_pos hdef, if_pos hen]
          exact ⟨h, rfl⟩
        · have hne : i ≠ p.regForAttribute a := fun hcon => by
            rw [hcon] at h; rw [h] at hen; exact hen rfl
          rw [if_pos hdef, if_neg hen]
          exact ⟨by dsimp only; rw [Function.update_noteq hne]; exact h,
                 by dsimp only; rw [Function.update_noteq hne]⟩
      · rw [if_neg hdef]
        exact ⟨h, rfl⟩
    obtain ⟨h1, h2⟩ := ih (fixedStep p B st a) i hstep.1
    exact ⟨h1, h2.trans hstep.2⟩

/-- The default-attribute loop only appends to the fixed buffer. -/
theorem fixedFold_buf_extend {V : Type} (p : VertexAttributesModel V) (B : Nat) :
    ∀ (l : List Nat) (st : FixedAttribState V),
      ∃ t, (l.foldl (fixedStep p B) st).buf = st.buf ++ t := by
  intro l
  induction l with
  | nil => intro st; exact ⟨[], (List.append_nil _).symm⟩
  | cons a l ih =>
    intro st
    rw [List.foldl_cons]
    obtain ⟨t, ht⟩ := ih (fixedStep p B st a)
    have hstep : ∃ u, (fixedStep p B st a).buf = st.buf ++ u := by
      unfold fixedStep
      by_cases hdef : p.isDefaultAttribute a
      · by_cases hen : st.enable (p.regForAttribute a)
        · exact ⟨[], by simp [hdef, hen]⟩
        · exact ⟨[p.input_default_attribute a], by simp [hdef, hen]⟩
      · exact ⟨[], by simp [hdef]⟩
    obtain ⟨u, hu⟩ := hstep
    exact ⟨u ++ t, by rw [ht, hu, List.append_assoc]⟩

/-- Walking the default-attribute loop over `l` resolves a still-disabled
location `i` whose first matching default attribute in `l` is `a0`: the
location gets an entry on the fixed binding `B` at a 16-byte-aligned
nonzero offset whose fixed-buffer slot holds the guest default value of
`a0`. -/
theorem fixedFold_default {V : Type} (p : VertexAttributesModel V) (B : Nat) :
    ∀ (l : List Nat) (st : FixedAttribState V) (i a0 : Nat),
      st.offset = vec4fSize * st.buf.length → st.buf ≠ [] →
      st.enable i = false →
      l.find? (fun a => p.isDefaultAttribute a && (p.regForAttribute a == i)) = some a0 →
      ∃ off,
        (l.foldl (fixedStep p B) st).attrs i =
          { binding := B, location := i, offset := off
            fmt := vertexAttributeFormatFLOAT, size := 4 } ∧
        vec4fSize ≤ off ∧
        (l.foldl (fixedStep p B) st).buf.get? (off / vec4fSize)
          = some (p.input_default_attribute a0) ∧
        (l.foldl (fixedStep p B) st).enable i = true := by
  intro l
  induction l with
  | nil =>
    intro st i a0 _ _ _ hfind
    simp [List.find?] at hfind
  | cons a l ih =>
    intro st i a0 hoff hne hen hfind
    rw [List.foldl_cons]
    by_cases hq : (p.isDefaultAttribute a && (p.regForAttribute a == i)) = true
    · have hcons : List.find?
          (fun a => p.isDefaultAttribute a && (p.regForAttribute a == i)) (a :: l)
          = some a := List.find?_cons_of_pos l hq
      have ha0 : a = a0 := Option.some.inj (hcons.symm.trans hfind)
      subst ha0
      have hdef : p.isDefaultAttribute a = true := ((Bool.and_eq_true _ _).mp hq).1
      have hreg : p.regForAttribute a = i := by
        have h2 := ((Bool.and_eq_true _ _).mp hq).2
        simpa using h2
      have henr : ¬ st.enable (p.regForAttribute a) = true := by
        rw [hreg, hen]; simp
      have hstepdef : fixedStep p B st a =
          { attrs := Function.update st.attrs (p.regForAttribute a)
              { binding := B, location := p.regForAttribute a, offset := st.offset
                fmt := vertexAttributeFormatFLOAT, size := 4 }
            enable := Function.update st.enable (p.regForAttribute a) true
            offset := st.offset + vec4fSize
            buf := st.buf ++ [p.input_default_attribute a] } := by
        unfold fixedStep
        rw [if_pos hdef, if_neg henr]
      have hen' : (fixedStep p B st a).enable i = true := by
        rw [hstepdef]; dsimp only; rw [hreg]; exact Function.update_same _ _ _
      have hattr' : (fixedStep p B st a).attrs i =
          { binding := B, location := i, offset := st.offset
            fmt := vertexAttributeFormatFLOAT, size := 4 } := by
        rw [hstepdef]; dsimp only; rw [hreg]; exact Function.update_same _ _ _
      obtain ⟨henf, hattrf⟩ := fixedFold_preserves_enabled p B l (fixedStep p B st a) i hen'
      obtain ⟨t, hbuf⟩ := fixedFold_buf_extend p B l (fixedStep p B st a)
      refine ⟨st.offset, ?_, ?_, ?_, henf⟩
      · rw [hattrf, hattr']
      · rw [hoff]
        have h1 : 0 < st.buf.length := List.length_pos.mpr hne
        calc vec4fSize = vec4fSize * 1 := (Nat.mul_one _).symm
          _ ≤ vec4fSize * st.buf.length := Nat.mul_le_mul_left _ h1
      · have hpos : st.offset / vec4fSize = st.buf.length := by
          rw [hoff]
          exact Nat.mul_div_cancel_left _ (by norm_num [vec4fSize])
        rw [hbuf, hstepdef]
        dsimp only
        rw [hpos, List.get?_eq_getElem?, List.getElem?_append_left (by simp)]
        simp
    · have hq' : (p.isDefaultAttribute a && (p.regForAttribute a == i)) = false :=
        Bool.eq_false_iff.mpr hq
      have hcons : List.find?
          (fun a => p.isDefaultAttribute a && (p.regForAttribute a == i)) (a :: l)
          = List.find? (fun a => p.isDefaultAttribute a && (p.regForAttribute a == i)) l :=
        List.find?_cons_of_neg l (by simp [hq'])
      have hfind' : List.find?
          (fun a => p.isDefaultAttribute a && (p.regForAttribute a == i)) l = some a0 :=
        hcons.symm.trans hfind
      have hstep_en : (fixedStep p B st a).enable i = false := by
        unfold fixedStep
        by_cases hdef : p.isDefaultAttribute a
        · by_cases henr : st.enable (p.regForAttribute a)
          · rw [if_pos hdef, if_pos henr]; exact hen
          · have hregne : p.regForAttribute a ≠ i := by
              intro hcon
              rw [hdef, hcon] at hq'
              simp at hq'
            rw [if_pos hdef, if_neg henr]
            dsimp only
            rw [Function.update_noteq (Ne.symm hregne)]
            exact hen
        · rw [if_neg hdef]; exact hen
      have hinv := fixedStep_inv p B st a ⟨hoff, hne⟩
      exact ih (fixedStep p B st a) i a0 hinv.1 hinv.2 hstep_en hfind'

/-- A still-disabled location with no matching default attribute in `l` is
left untouched by the default-attribute loop. -/
theorem fixedFold_nodefault {V : Type} (p : VertexAttributesModel V) (B : Nat) :
    ∀ (l : List Nat) (st : FixedAttribState V) (i : Nat),
      st.enable i = false →
      l.find? (fun a => p.isDefaultAttribute a && (p.regForAttribute a == i)) = none →
      (l.foldl (fixedStep p B) st).attrs i = st.attrs i ∧
      (l.foldl (fixedStep p B) st).enable i = false := by
  intro l
  induction l with
  | nil => intro st i _ _; exact ⟨rfl, by assumption⟩
  | cons a l ih =>
    intro st i hen hfind
    rw [List.foldl_cons]
    have hq' : (p.isDefaultAttribute a && (p.regForAttribute a == i)) = false := by
      by_contra hcon
      have hq : (p.isDefaultAttribute a && (p.regForAttribute a == i)) = true :=
        eq_true_of_ne_false hcon
      have hcons : List.find?
          (fun a => p.isDefaultAttribute a && (p.regForAttribute a == i)) (a :: l)
          = some a := List.find?_cons_of_pos l hq
      rw [hcons] at hfind
      exact Option.noConfusion hfind
    have hcons : List.find?
        (fun a => p.isDefaultAttribute a && (p.regForAttribute a == i)) (a :: l)
        = List.find? (fun a => p.isDefaultAttribute a && (p.regForAttribute a == i)) l :=
      List.find?_cons_of_neg l (by simp [hq'])
    have hfind' : List.find?
        (fun a => p.isDefaultAttribute a && (p.regForAttribute a == i)) l = none :=
      hcons.symm.trans hfind
    have hstep : (fixedStep p B st a).enable i = false ∧
        (fixedStep p B st a).attrs i = st.attrs i := by
      unfold fixedStep
      by_cases hdef : p.isDefaultAttribute a
      · by_cases henr : st.enable (p.regForAttribute a)
        · rw [if_pos hdef, if_pos henr]; exact ⟨hen, rfl⟩
        · have hregne : p.regForAttribute a ≠ i := by
            intro hcon
            rw [hdef, hcon] at hq'
            simp at hq'
          rw [if_pos hdef, if_neg henr]
          refine ⟨?_, ?_⟩
          · dsimp only; rw [Function.update_noteq (Ne.symm hregne)]; exact hen
          · dsimp only; rw [Function.update_noteq (Ne.symm hregne)]
      · rw [if_neg hdef]; exact ⟨hen, rfl⟩
    obtain ⟨h1, h2⟩ := ih (fixedStep p B st a) i hstep.1 hfind'
    exact ⟨h1.trans hstep.2, h2⟩

/-- Pointwise characterization of the disabled-attribute loop (the last
loop of `SetupFixedAttribs`): a location in `l` that is still disabled gets
`disabledAttr`, every other slot is untouched. -/
theorem disabledFold_apply (B : Nat) (en : Nat → Bool) :
    ∀ (l : List Nat) (a : Nat → VertexAttributeEntry) (i : Nat),
      (l.foldl (fun a j => if en j then a else Function.update a j (disabledAttr B j)) a) i
        = if i ∈ l ∧ en i = false then disabledAttr B i else a i := by
  intro l
  induction l with
  | nil => intro a i; simp
  | cons j l ih =>
    intro a i
    rw [List.foldl_cons, ih]
    by_cases hen : en i = true
    · have hcond1 : ¬ (i ∈ l ∧ en i = false) := by simp [hen]
      have hcond2 : ¬ (i ∈ j :: l ∧ en i = false) := by simp [hen]
      rw [if_neg hcond1, if_neg hcond2]
      by_cases hij : i = j
      · subst hij
        rw [if_pos hen]
      · by_cases henj : en j
        · rw [if_pos henj]
        · rw [if_neg henj, Function.update_noteq hij]
    · have henf : en i = false := Bool.eq_false_iff.mpr hen
      by_cases hmem : i ∈ l
      · rw [if_pos ⟨hmem, henf⟩, if_pos ⟨List.mem_cons_of_mem j hmem, henf⟩]
      · rw [if_neg (fun hcon => hmem hcon.1)]
        by_cases hij : i = j
        · have hc2 : i ∈ j :: l ∧ en i = false :=
            ⟨by rw [hij]; exact List.mem_cons_self j l, henf⟩
          rw [if_pos hc2]
          have henj : ¬ en j = true := by rw [← hij]; exact hen
          rw [if_neg henj, hij, Function.update_same]
        · have hc2 : ¬ (i ∈ j :: l ∧ en i = false) := by
            intro hcon
            rcases List.mem_cons.mp hcon.1 with h | h
            · exact hij h
            · exact hmem h
          rw [if_neg hc2]
          by_cases henj : en j = true
          · rw [if_pos henj]
          · rw [if_neg henj, Function.update_noteq hij]

/-- Claim C9: after the loader pass and the fixed/default pass, every
shader input location in [0, 16) carries exactly one attribute entry — the
slot of the 16-entry attribute array indexed by that location, whose
`location` field equals the location.  Locations resolved by a loader keep
that loader's entry (whose binding is one of the allocated loader
bindings, each assigned at write time from the processing loader's
binding index); unresolved locations with a matching default guest
attribute point into the shared fixed binding at the 16-byte slot holding
that attribute's guest default value; all remaining locations point at
offset 0 of the fixed binding, where the constant `(0, 0, 0, 1)` vector
lives. -/
theorem C9_every_location_one_attribute (V : Type) (p : VertexAttributesModel V) (i : Nat)
    (hi : i < 16) :
    ((finalLayout p).attrs i).location = i ∧
    (finalLayout p).buf.get? 0 = some p.default_attrib ∧
    ((setupVertexArrayLayout p).enable i = true →
      (finalLayout p).attrs i = (setupVertexArrayLayout p).attrs i ∧
      ((setupVertexArrayLayout p).attrs i).binding
        < (setupVertexArrayLayout p).binding_count) ∧
    ((setupVertexArrayLayout p).enable i = false →
      ((finalLayout p).attrs i).binding = (setupVertexArrayLayout p).binding_count ∧
      (∀ a0, (List.range 16).find?
            (fun a => p.isDefaultAttribute a && (p.regForAttribute a == i)) = some a0 →
        vec4fSize ≤ ((finalLayout p).attrs i).offset ∧
        (finalLayout p).buf.get? (((finalLayout p).attrs i).offset / vec4fSize)
          = some (p.input_default_attribute a0)) ∧
      ((List.range 16).find?
            (fun a => p.isDefaultAttribute a && (p.regForAttribute a == i)) = none →
        (finalLayout p).attrs i
          = disabledAttr (setupVertexArrayLayout p).binding_count i)) := by
  have hinv1 := setupVertexArrayLayout_inv p
  set s1 := setupVertexArrayLayout p with hs1
  set B := s1.binding_count with hB
  set st0 := fixedInitState p s1 with hst0
  set st1 := defaultPass p B st0 with hst1
  have hfl_attrs : (finalLayout p).attrs = disabledPass B st1.enable st1.attrs := rfl
  have hfl_buf : (finalLayout p).buf = st1.buf := rfl
  have hst0off : st0.offset = vec4fSize * st0.buf.length := by
    rw [hst0]; simp [fixedInitState]
  have hst0ne : st0.buf ≠ [] := by rw [hst0]; simp [fixedInitState]
  have hst0en : st0.enable = s1.enable := rfl
  have hst0at : st0.attrs = s1.attrs := rfl
  obtain ⟨tb, htb⟩ := fixedFold_buf_extend p B (List.range 16) st0
  have hbuf0 : st1.buf.get? 0 = some p.default_attrib := by
    rw [hst1, defaultPass, htb, hst0]
    simp [fixedInitState]
  by_cases hen : s1.enable i = true
  · obtain ⟨henf, hattrf⟩ := fixedFold_preserves_enabled p B (List.range 16) st0 i
      (by rw [hst0en]; exact hen)
    have henf1 : st1.enable i = true := henf
    have hattrf1 : st1.attrs i = s1.attrs i := by rw [hst1, defaultPass, hattrf, hst0at]
    have hfin : (finalLayout p).attrs i = s1.attrs i := by
      rw [hfl_attrs]
      unfold disabledPass
      rw [disabledFold_apply, if_neg (by simp [henf1]), hattrf1]
    refine ⟨?_, by rw [hfl_buf]; exact hbuf0, fun _ => ⟨hfin, (hinv1 i hen).2⟩,
      fun hfalse => Bool.noConfusion (hen.symm.trans hfalse)⟩
    rw [hfin]
    exact (hinv1 i hen).1
  · have henb : s1.enable i = false := Bool.eq_false_iff.mpr hen
    cases hfind : (List.range 16).find?
        (fun a => p.isDefaultAttribute a && (p.regForAttribute a == i)) with
    | some a0 =>
      obtain ⟨off, hattr, hoffle, hget, henf⟩ := fixedFold_default p B (List.range 16) st0 i a0
        hst0off hst0ne (by rw [hst0en]; exact henb) hfind
      have hattr1 : st1.attrs i =
          { binding := B, location := i, offset := off
            fmt := vertexAttributeFormatFLOAT, size := 4 } := hattr
      have henf1 : st1.enable i = true := henf
      have hget1 : st1.buf.get? (off / vec4fSize) = some (p.input_default_attribute a0) := hget
      have hfin : (finalLayout p).attrs i =
          { binding := B, location := i, offset := off
            fmt := vertexAttributeFormatFLOAT, size := 4 } := by
        rw [hfl_attrs]
        unfold disabledPass
        rw [disabledFold_apply, if_neg (by simp [henf1]), hattr1]
      refine ⟨by rw [hfin], by rw [hfl_buf]; exact hbuf0, ?_, ?_⟩
      · intro hcon
        exact absurd hcon (by rw [henb]; simp)
      · intro _
        refine ⟨by rw [hfin], ?_, ?_⟩
        · intro a0' hfind'
          have ha0 : a0' = a0 := (Option.some.inj hfind').symm
          subst ha0
          constructor
          · rw [hfin]; exact hoffle
          · rw [hfin, hfl_buf]; exact hget1
        · intro hnone
          exact Option.noConfusion hnone
    | none =>
      obtain ⟨hattr, henf⟩ := fixedFold_nodefault p B (List.range 16) st0 i
        (by rw [hst0en]; exact henb) hfind
      have hattr1 : st1.attrs i = s1.attrs i := by rw [hst1, defaultPass, hattr, hst0at]
      have henf1 : st1.enable i = false := henf
      have hmem : i ∈ List.range 16 := List.mem_range.mpr hi
      have hfin : (finalLayout p).attrs i = disabledAttr B i := by
        rw [hfl_attrs]
        unfold disabledPass
        rw [disabledFold_apply, if_pos ⟨hmem, henf1⟩]
      refine ⟨by rw [hfin]; rfl, by rw [hfl_buf]; exact hbuf0, ?_, ?_⟩
      · intro hcon
        exact absurd hcon (by rw [henb]; simp)
      · intro _
        refine ⟨by rw [hfin]; rfl, ?_, fun _ => hfin⟩
        intro a0' hfind'
        exact Option.noConfusion hfind'

/-- A concrete attribute configuration used to witness C9: no loaders, no
default attributes, identity register mapping. -/
def exVertexModel : VertexAttributesModel Nat :=
  { attribute_loaders := []
    numElements := fun _ => 0
    elementSize := fun _ => 4
    strideOf := fun _ => 4
    formatOf := fun _ => 0
    regForAttribute := fun a => a
    isDefaultAttribute := fun _ => false
    input_default_attribute := fun _ => 0
    default_attrib := 1 }

/-- Witness for C9 at the concrete configuration and location 0. -/
theorem C9_every_location_one_attribute_witness :
    ((finalLayout exVertexModel).attrs 0).location = 0 :=
  (C9_every_location_one_attribute Nat exVertexModel 0 (by decide)).1
